import Mathlib

/-!
# Verification of the sendly-rust client SDK core

Shallow embedding of the request execution / retry / error-classification
pipeline (`src/client.rs`, `src/error.rs`), the webhook signature
verification logic (`src/webhooks.rs`), and the client-side validation in
the messages resource (`src/messages.rs`), together with proofs of the
specification claims about them.

Strings are Rust `&str` values; byte-level operations (`as_bytes`, `len`,
`is_empty`) are modelled through the UTF-8 encoding of the string.
Machine integers (`u16` status codes, `u32 max_retries`, `u64 retry_after`)
are modelled as `Nat`; the only place overflow matters is `u64` parsing of
the `Retry-After` header, where the bound `2 ^ 64` is explicit.
-/

namespace Sendly

/-! ## Byte-level view of Rust strings -/

/-- UTF-8 bytes of a string, as naturals below 256 (Rust `str::as_bytes`). -/
def strBytes (s : String) : List Nat :=
  (s.data.flatMap String.utf8EncodeChar).map UInt8.toNat

/-- Rust `str::is_empty`: the byte length is zero. -/
def strIsEmpty (s : String) : Bool :=
  strBytes s == []

/-! ## `src/error.rs` -/

/-- Model of `reqwest::Error` as seen by the retry loop: the two
classification predicates it queries plus its `to_string` rendering. -/
structure ReqwestError where
  is_timeout : Bool
  is_connect : Bool
  to_string : String
deriving DecidableEq, Repr

/-- `enum Error` from `src/error.rs` (the `Json` variant carries the
rendered serde message; `Http` carries the underlying transport error). -/
inductive Error where
  | Authentication (message : String)
  | RateLimit (message : String) (retry_after : Option Nat)
  | InsufficientCredits (message : String)
  | Validation (message : String)
  | NotFound (message : String)
  | Network (message : String)
  | Timeout
  | Json (message : String)
  | Http (e : ReqwestError)
  | Api (message : String) (status_code : Nat) (code : Option String)
deriving DecidableEq, Repr

/-- `Error::is_retryable` from `src/error.rs`. -/
def Error.is_retryable : Error → Bool
  | .RateLimit _ _ => true
  | .Network _ => true
  | .Timeout => true
  | _ => false

/-- `Error::retry_after` from `src/error.rs`. -/
def Error.retryAfterSeconds : Error → Option Nat
  | .RateLimit _ retry_after => retry_after
  | _ => none

/-- `struct ApiErrorResponse` from `src/error.rs`: the decoded error
envelope `{message?, error?, code?}`. -/
structure ApiErrorResponse where
  message : Option String
  error : Option String
  code : Option String
deriving DecidableEq, Repr

/-- `ApiErrorResponse::message()`: prefer `message`, then `error`, then
the fallback `"Unknown error"`. -/
def ApiErrorResponse.messageText (r : ApiErrorResponse) : String :=
  (r.message.orElse fun _ => r.error).getD "Unknown error"

/-! ## `src/client.rs` -/

/-- An HTTP response as consumed by `handle_response`: the status code,
the response headers, and the body already decoded (best effort) as the
error envelope — `none` models a body that `serde_json` cannot decode as
`ApiErrorResponse` (the JSON deserializer itself is an external
collaborator). Successful (2xx) responses are returned whole, body
untouched. -/
structure HttpResponse where
  status : Nat
  headers : List (String × String)
  body : Option ApiErrorResponse
deriving DecidableEq, Repr

/-- `response.headers().get(name)`: first header with the given name.
(The HTTP library stores names case-insensitively; lookups here use the
exact name the code uses.) -/
def getHeader (headers : List (String × String)) (name : String) : Option String :=
  (headers.find? fun h => h.1 == name).map (·.2)

/-- Rust `str::parse::<u64>()` on a header value: an optional leading
`+` sign, then at least one ASCII decimal digit, with values at or
above `2 ^ 64` rejected as overflow. -/
def parseU64 (s : String) : Option Nat :=
  let digits :=
    match s.data with
    | '+' :: rest => rest
    | l => l
  if digits ≠ [] ∧ digits.all Char.isDigit then
    let n := digits.foldl (fun acc c => acc * 10 + (c.toNat - 48)) 0
    if n < 2 ^ 64 then some n else none
  else none

/-- `Sendly::handle_response` from `src/client.rs`: pass 2xx through,
otherwise map the status code to a typed error, attaching the parsed
`Retry-After` header to `RateLimit` only. -/
def handle_response (response : HttpResponse) : Except Error HttpResponse :=
  let status := response.status
  if 200 ≤ status ∧ status < 300 then
    .ok response
  else
    let retry_after := (getHeader response.headers "Retry-After").bind parseU64
    let error_body := response.body.getD ⟨none, none, none⟩
    let message := error_body.messageText
    .error <|
      if status = 401 then .Authentication message
      else if status = 402 then .InsufficientCredits message
      else if status = 404 then .NotFound message
      else if status = 429 then .RateLimit message retry_after
      else if status = 400 ∨ status = 422 then .Validation message
      else .Api message status error_body.code

deriving instance DecidableEq for Except

/-- Observable outcome of one `request_with_retry` call: the returned
result, the number of transport attempts performed, and the list of
backoff sleeps (in seconds) in the order they occurred. -/
structure RetryOutcome where
  result : Except Error HttpResponse
  attempts : Nat
  sleeps : List Nat
deriving DecidableEq, Repr

/-- Body of the `for attempt in 0..=max_retries` loop of
`Sendly::request_with_retry`, with the remaining iteration count made
explicit as `fuel` (initially `max_retries + 1`). `fn` is the transport:
it maps the attempt index to that attempt's outcome. When the fuel runs
out the recorded `last_error` is returned, with the
`"Request failed after retries"` fallback for `None`. -/
def requestWithRetryAux (fn : Nat → Except ReqwestError HttpResponse) :
    Nat → Nat → Option Error → RetryOutcome
  | 0, _, lastError =>
      { result := .error (lastError.getD (.Network "Request failed after retries")),
        attempts := 0, sleeps := [] }
  | fuel + 1, attempt, _ =>
      let sleeps : List Nat := if 0 < attempt then [2 ^ (attempt - 1)] else []
      match fn attempt with
      | .ok response =>
          { result := handle_response response, attempts := 1, sleeps := sleeps }
      | .error e =>
          if e.is_timeout then
            let rest := requestWithRetryAux fn fuel (attempt + 1) (some .Timeout)
            { result := rest.result, attempts := rest.attempts + 1,
              sleeps := sleeps ++ rest.sleeps }
          else if e.is_connect then
            let rest := requestWithRetryAux fn fuel (attempt + 1)
              (some (.Network e.to_string))
            { result := rest.result, attempts := rest.attempts + 1,
              sleeps := sleeps ++ rest.sleeps }
          else
            { result := .error (.Http e), attempts := 1, sleeps := sleeps }

/-- `Sendly::request_with_retry` from `src/client.rs`, instrumented with
the attempt count and sleep trace. `max_retries` is `config.max_retries`. -/
def request_with_retry (fn : Nat → Except ReqwestError HttpResponse)
    (max_retries : Nat) : RetryOutcome :=
  requestWithRetryAux fn (max_retries + 1) 0 none

/-- A transport outcome that the loop retries: an error for which
`is_timeout` or `is_connect` holds. -/
def isRetryableErr : Except ReqwestError HttpResponse → Bool
  | .error e => e.is_timeout || e.is_connect
  | .ok _ => false

/-- The error the loop records for a retryable transport failure:
`Timeout` when `is_timeout`, otherwise `Network` with the rendered
message (matching the `if`/`else if` order in the source). -/
def classifyRetryable (e : ReqwestError) : Error :=
  if e.is_timeout then .Timeout else .Network e.to_string

end Sendly

/-! ## SHA-256 and HMAC-SHA256 (the `sha2`/`hmac` collaborator crates)

Executable implementation of FIPS 180-4 SHA-256 and RFC 2104 HMAC over
byte lists (naturals below 256), with 32-bit words as naturals reduced
modulo `2 ^ 32`. -/

namespace Sha256

/-- Truncate to a 32-bit word. -/
def w32 (x : Nat) : Nat := x % 4294967296

/-- Bitwise complement within 32 bits. -/
def notw (x : Nat) : Nat := 4294967295 - x

/-- Right rotation of a 32-bit word. -/
def rotr (n x : Nat) : Nat :=
  w32 ((x >>> n) ||| (x <<< (32 - n)))

def ch (x y z : Nat) : Nat := (x &&& y) ^^^ (notw (w32 x) &&& z)

def maj (x y z : Nat) : Nat := (x &&& y) ^^^ (x &&& z) ^^^ (y &&& z)

def bsig0 (x : Nat) : Nat := rotr 2 x ^^^ rotr 13 x ^^^ rotr 22 x

def bsig1 (x : Nat) : Nat := rotr 6 x ^^^ rotr 11 x ^^^ rotr 25 x

def ssig0 (x : Nat) : Nat := rotr 7 x ^^^ rotr 18 x ^^^ (x >>> 3)

def ssig1 (x : Nat) : Nat := rotr 17 x ^^^ rotr 19 x ^^^ (x >>> 10)

/-- The 64 SHA-256 round constants (FIPS 180-4, in decimal). -/
def roundConstants : List Nat :=
  [1116352408, 1899447441, 3049323471, 3921009573, 961987163,
   1508970993, 2453635748, 2870763221, 3624381080, 310598401,
   607225278, 1426881987, 1925078388, 2162078206, 2614888103,
   3248222580, 3835390401, 4022224774, 264347078, 604807628,
   770255983, 1249150122, 1555081692, 1996064986, 2554220882,
   2821834349, 2952996808, 3210313671, 3336571891, 3584528711,
   113926993, 338241895, 666307205, 773529912, 1294757372,
   1396182291, 1695183700, 1986661051, 2177026350, 2456956037,
   2730485921, 2820302411, 3259730800, 3345764771, 3516065817,
   3600352804, 4094571909, 275423344, 430227734, 506948616,
   659060556, 883997877, 958139571, 1322822218, 1537002063,
   1747873779, 1955562222, 2024104815, 2227730452, 2361852424,
   2428436474, 2756734187, 3204031479, 3329325298]

/-- The initial hash value (FIPS 180-4, in decimal). -/
def initialHash : List Nat :=
  [1779033703, 3144134277, 1013904242, 2773480762, 1359893119,
   2600822924, 528734635, 1541459225]

/-- Big-endian bytes of a number over `n` bytes (most significant first). -/
def beBytes : Nat → Nat → List Nat
  | 0, _ => []
  | n + 1, x => (x >>> (8 * n)) % 256 :: beBytes n x

/-- Combine four big-endian bytes into a 32-bit word. -/
def wordOfBytes (b0 b1 b2 b3 : Nat) : Nat :=
  ((b0 <<< 24) ||| (b1 <<< 16) ||| (b2 <<< 8) ||| b3)

/-- Split a byte list into 32-bit words (big-endian groups of four). -/
def toWords : List Nat → List Nat
  | b0 :: b1 :: b2 :: b3 :: rest => wordOfBytes b0 b1 b2 b3 :: toWords rest
  | _ => []

/-- SHA-256 padding: append `0x80`, zero bytes to 56 mod 64, and the
64-bit big-endian bit length of the message. -/
def pad (msg : List Nat) : List Nat :=
  let l := msg.length
  let zeros := (64 + 56 - (l + 1) % 64) % 64
  msg ++ 0x80 :: List.replicate zeros 0 ++ beBytes 8 (8 * l)

/-- Split a list into chunks of 16 elements (the padded message is a
multiple of 16 words long; a trailing short chunk would pass through,
but padding never produces one). -/
def chunks16 : List Nat → List (List Nat)
  | [] => []
  | w0 :: w1 :: w2 :: w3 :: w4 :: w5 :: w6 :: w7 ::
    w8 :: w9 :: w10 :: w11 :: w12 :: w13 :: w14 :: w15 :: rest =>
      [w0, w1, w2, w3, w4, w5, w6, w7, w8, w9, w10, w11, w12, w13, w14, w15] ::
        chunks16 rest
  | l => [l]

/-- One step of the message-schedule extension: given the last 16 words
(most recent first), the next word. -/
def scheduleNext (recent : List Nat) : Nat :=
  match recent with
  | _ :: w2 :: _ :: _ :: _ :: _ :: w7 :: _ :: _ :: _ :: _ :: _ :: _ :: _ :: w15 :: w16 :: _ =>
      w32 (ssig1 w2 + w7 + ssig0 w15 + w16)
  | _ => 0

/-- Extend the 16 block words to the 64-word message schedule. `acc` is
the schedule so far, reversed. -/
def extendSchedule : Nat → List Nat → List Nat
  | 0, acc => acc.reverse
  | n + 1, acc => extendSchedule n (scheduleNext acc :: acc)

/-- The 64-entry message schedule W for one block. -/
def schedule (block : List Nat) : List Nat :=
  extendSchedule 48 block.reverse

/-- One round of the compression function. -/
def round (state : List Nat) (kw : Nat × Nat) : List Nat :=
  match state with
  | [a, b, c, d, e, f, g, h] =>
      let t1 := w32 (h + bsig1 e + ch e f g + kw.1 + kw.2)
      let t2 := w32 (bsig0 a + maj a b c)
      [w32 (t1 + t2), a, b, c, w32 (d + t1), e, f, g]
  | s => s

/-- Process one 16-word block: 64 rounds, then add the working variables
back into the hash value. -/
def compress (hash : List Nat) (block : List Nat) : List Nat :=
  let w := schedule block
  let final := (roundConstants.zip w).foldl round hash
  (hash.zip final).map fun p => w32 (p.1 + p.2)

/-- SHA-256 digest (32 bytes) of a byte list. -/
def sha256 (msg : List Nat) : List Nat :=
  let blocks := chunks16 (toWords (pad msg))
  let final := blocks.foldl compress initialHash
  final.flatMap (beBytes 4)

/-- RFC 2104 HMAC-SHA256: keys longer than the 64-byte block are hashed
first, then padded with zeros; digest of `(key ⊕ opad) ∥ H((key ⊕ ipad) ∥ msg)`. -/
def hmacSha256 (key msg : List Nat) : List Nat :=
  let key := if 64 < key.length then sha256 key else key
  let key := key ++ List.replicate (64 - key.length) 0
  let ipad := key.map (· ^^^ 0x36)
  let opad := key.map (· ^^^ 0x5c)
  sha256 (opad ++ sha256 (ipad ++ msg))

end Sha256

namespace Sendly

/-! ## `src/webhooks.rs` -/

/-- Lowercase hex digit for a value below 16 (the `hex` crate). -/
def hexDigit (n : Nat) : Char :=
  if n < 10 then Char.ofNat (48 + n) else Char.ofNat (87 + n)

/-- `hex::encode`: lowercase hex rendering of a byte list. -/
def hexEncode (bytes : List Nat) : String :=
  ⟨bytes.flatMap fun b => [hexDigit (b / 16), hexDigit (b % 16)]⟩

/-- `enum WebhookEventType` from `src/webhooks.rs`. -/
inductive WebhookEventType where
  | MessageQueued
  | MessageSent
  | MessageDelivered
  | MessageFailed
  | MessageUndelivered
deriving DecidableEq, Repr

/-- `enum WebhookMessageStatus` from `src/webhooks.rs`. -/
inductive WebhookMessageStatus where
  | Queued
  | Sent
  | Delivered
  | Failed
  | Undelivered
deriving DecidableEq, Repr

/-- `struct WebhookMessageData` from `src/webhooks.rs` (`i32` counters as
`Int`). -/
structure WebhookMessageData where
  message_id : String
  status : WebhookMessageStatus
  «to» : String
  «from» : String
  error : Option String
  error_code : Option String
  delivered_at : Option String
  failed_at : Option String
  segments : Int
  credits_used : Int
deriving DecidableEq, Repr

/-- `struct WebhookEvent` from `src/webhooks.rs`. -/
structure WebhookEvent where
  id : String
  event_type : WebhookEventType
  data : WebhookMessageData
  created_at : String
  api_version : String
deriving DecidableEq, Repr

/-- `enum WebhookError` from `src/webhooks.rs`. -/
inductive WebhookError where
  | InvalidSignature
  | ParseError (detail : String)
  | InvalidStructure
deriving DecidableEq, Repr

/-- `constant_time_compare` from `src/webhooks.rs`: compare byte lengths,
then OR together the XOR of every byte pair. -/
def constant_time_compare (a b : String) : Bool :=
  if (strBytes a).length ≠ (strBytes b).length then false
  else
    (((strBytes a).zip (strBytes b)).foldl
      (fun result p => result ||| (p.1 ^^^ p.2)) 0) == 0

/-- `Webhooks::generate_signature`: HMAC-SHA256 of the payload keyed by
the secret, hex-encoded, prefixed with `sha256=`. (The
`HmacSha256::new_from_slice` failure branch is unreachable: HMAC accepts
keys of any size.) -/
def generate_signature (payload secret : String) : String :=
  "sha256=" ++ hexEncode (Sha256.hmacSha256 (strBytes secret) (strBytes payload))

/-- `Webhooks::verify_signature` from `src/webhooks.rs`. -/
def verify_signature (payload signature secret : String) : Bool :=
  if strIsEmpty payload || strIsEmpty signature || strIsEmpty secret then
    false
  else
    let expected :=
      "sha256=" ++ hexEncode (Sha256.hmacSha256 (strBytes secret) (strBytes payload))
    constant_time_compare signature expected

/-- `Webhooks::parse_event` from `src/webhooks.rs`, parametrized by the
`serde_json` deserializer (an external collaborator): `deser` returns
either the decoded `WebhookEvent` or the rendered parse error. -/
def parse_event (deser : String → Except String WebhookEvent)
    (payload signature secret : String) : Except WebhookError WebhookEvent :=
  if !verify_signature payload signature secret then
    .error .InvalidSignature
  else
    match deser payload with
    | .error e => .error (.ParseError e)
    | .ok event =>
        if strIsEmpty event.id || strIsEmpty event.created_at then
          .error .InvalidStructure
        else
          .ok event

/-! ## `src/messages.rs` -/

/-- `enum MessageType` from `src/models.rs`. -/
inductive MessageType where
  | Marketing
  | Transactional
deriving DecidableEq, Repr

/-- `struct SendMessageRequest` from `src/models.rs`. -/
structure SendMessageRequest where
  «to» : String
  text : String
  message_type : Option MessageType
deriving DecidableEq, Repr

/-- Start code points of the runs of ten consecutive decimal digits
that make up the Unicode general category `Nd` (Unicode 15.0): the
`regex` crate's `\d` is Unicode-aware by default and matches exactly
`\p{Nd}`. -/
def ndDigitRunStarts : List Nat :=
  [48, 1632, 1776, 1984, 2406, 2534, 2662, 2790,
   2918, 3046, 3174, 3302, 3430, 3558, 3664, 3792,
   3872, 4160, 4240, 6112, 6160, 6470, 6608, 6784,
   6800, 6992, 7088, 7232, 7248, 42528, 43216, 43264,
   43472, 43504, 43600, 44016, 65296, 66720, 68912, 69734,
   69872, 69942, 70096, 70384, 70736, 70864, 71248, 71360,
   71472, 71904, 72016, 72784, 73040, 73120, 73552, 92768,
   92864, 93008, 120782, 120792, 120802, 120812, 120822, 123200,
   123632, 124144, 125264, 130032]

/-- A character matched by the `regex` crate's default (Unicode) `\d`:
a member of one of the `Nd` digit runs. -/
def isUnicodeDigit (c : Char) : Bool :=
  ndDigitRunStarts.any fun s => s ≤ c.toNat && c.toNat ≤ s + 9

/-- The phone regex `^\+[1-9]\d{1,14}$` from `src/messages.rs`, compiled
once. `[1-9]` is the ASCII range; `\d` is a Unicode `Nd` digit;
`{1,14}` counts matched code points; the anchors make the whole string
match. -/
def phoneRegexMatches (phone : String) : Bool :=
  match phone.data with
  | '+' :: first :: rest =>
      decide ('1' ≤ first) && decide (first ≤ '9') &&
        decide (1 ≤ rest.length) && decide (rest.length ≤ 14) &&
        rest.all isUnicodeDigit
  | _ => false

/-- `MAX_TEXT_LENGTH` from `src/messages.rs`. -/
def MAX_TEXT_LENGTH : Nat := 1600

/-- `validate_phone` from `src/messages.rs`. -/
def validate_phone (phone : String) : Except Error Unit :=
  if !phoneRegexMatches phone then
    .error (.Validation "Invalid phone number format. Use E.164 format (e.g., +15551234567)")
  else
    .ok ()

/-- `validate_text` from `src/messages.rs` (`text.len()` is the UTF-8
byte length). -/
def validate_text (text : String) : Except Error Unit :=
  if strIsEmpty text then
    .error (.Validation "Message text is required")
  else if MAX_TEXT_LENGTH < (strBytes text).length then
    .error (.Validation ("Message text exceeds maximum length ("
      ++ toString MAX_TEXT_LENGTH ++ " characters)"))
  else
    .ok ()

/-- `Messages::send` from `src/messages.rs`, with the network stage
(`client.post` followed by `response.json::<Message>()`) abstracted as
`network` — its value is only consulted after both validations pass. The
`Bool` component records whether that network stage was reached. -/
def messages_send {α : Type} (network : Except Error α)
    (request : SendMessageRequest) : Except Error α × Bool :=
  match validate_phone request.to with
  | .error e => (.error e, false)
  | .ok _ =>
      match validate_text request.text with
      | .error e => (.error e, false)
      | .ok _ => (network, true)

/-- `Messages::get` from `src/messages.rs`, with the network stage
abstracted as `network`; the `Bool` component records whether it was
reached. -/
def messages_get {α : Type} (network : Except Error α)
    (id : String) : Except Error α × Bool :=
  if strIsEmpty id then
    (.error (.Validation "Message ID is required"), false)
  else
    (network, true)

/-- Whether a result is a `Validation` error. -/
def resultIsValidation {α : Type} : Except Error α → Bool
  | .error (.Validation _) => true
  | _ => false

/-! ## Derived notions used in theorem statements -/

/-- The backoff sleeps observed over `n` consecutive loop iterations
starting at attempt index `attempt`: no sleep before attempt `0`,
`2 ^ (k - 1)` seconds before attempt `k > 0`. -/
def backoffFrom : Nat → Nat → List Nat
  | _, 0 => []
  | attempt, n + 1 =>
      (if 0 < attempt then [2 ^ (attempt - 1)] else []) ++ backoffFrom (attempt + 1) n

/-- The error-envelope message text extracted from an optional decoded
body, as `handle_response` computes it. -/
def bodyMessage (body : Option ApiErrorResponse) : String :=
  (body.getD ⟨none, none, none⟩).messageText

/-- The vendor error code extracted from an optional decoded body. -/
def bodyCode (body : Option ApiErrorResponse) : Option String :=
  (body.getD ⟨none, none, none⟩).code

/-! ## Concrete fixtures used by witnesses -/

/-- A concrete webhook event. -/
def sampleEvent : WebhookEvent :=
  { id := "evt_1"
    event_type := .MessageDelivered
    data :=
      { message_id := "msg_1"
        status := .Delivered
        «to» := "+15551234567"
        «from» := "+15550000000"
        error := none
        error_code := none
        delivered_at := some "2024-01-05T12:00:00Z"
        failed_at := none
        segments := 1
        credits_used := 1 }
    created_at := "2024-01-05T12:00:00Z"
    api_version := "2024-01-01" }

/-- A deserializer that decodes every payload to `sampleEvent`. -/
def sampleDeser : String → Except String WebhookEvent :=
  fun _ => .ok sampleEvent

/-- A concrete webhook payload body. -/
def samplePayload : String := "webhook payload body"

end Sendly

namespace Sendly

/-! ## Helper lemmas: webhook verification -/

/-- Folding OR of XOR over a list zipped with itself accumulates zero. -/
lemma foldl_xor_zip_self (l : List Nat) :
    (l.zip l).foldl (fun result p => result ||| (p.1 ^^^ p.2)) 0 = 0 := by
  induction l with
  | nil => rfl
  | cons x t ih => simpa [Nat.xor_self] using ih

/-- The constant-time comparison accepts equal strings. -/
lemma constant_time_compare_self (s : String) : constant_time_compare s s = true := by
  unfold constant_time_compare
  rw [if_neg (by simp), foldl_xor_zip_self]
  rfl

/-- UTF-8 bytes distribute over string append. -/
lemma strBytes_append (a b : String) : strBytes (a ++ b) = strBytes a ++ strBytes b := by
  simp [strBytes, String.data_append]

/-- A string starting with the `sha256=` prefix is never empty. -/
lemma strIsEmpty_sha256_prefixed (x : String) : strIsEmpty ("sha256=" ++ x) = false := by
  unfold strIsEmpty
  rw [strBytes_append]
  have h : strBytes "sha256=" = [115, 104, 97, 50, 53, 54, 61] := by rfl
  rw [h]
  rfl

/-- The byte-emptiness check agrees with string equality to `""`. -/
lemma strIsEmpty_true_iff (s : String) : strIsEmpty s = true ↔ s = "" := by
  unfold strIsEmpty strBytes
  rw [beq_iff_eq, List.map_eq_nil_iff]
  constructor
  · intro h
    cases s with
    | mk data =>
      cases data with
      | nil => rfl
      | cons c t =>
        exfalso
        rw [List.flatMap_cons, List.append_eq_nil] at h
        have hlen : (String.utf8EncodeChar c).length = c.utf8Size :=
          String.length_utf8EncodeChar c
        have hpos := Char.utf8Size_pos c
        rw [h.1] at hlen
        simp at hlen
        omega
  · intro h
    subst h
    rfl

/-- Signature verification accepts a freshly generated signature for any
nonempty payload and secret. -/
lemma verify_generate_eq_true (payload secret : String)
    (hp : payload ≠ "") (hs : secret ≠ "") :
    verify_signature payload (generate_signature payload secret) secret = true := by
  have hp' : strIsEmpty payload = false := by
    cases hb : strIsEmpty payload with
    | false => rfl
    | true => exact absurd ((strIsEmpty_true_iff payload).mp hb) hp
  have hs' : strIsEmpty secret = false := by
    cases hb : strIsEmpty secret with
    | false => rfl
    | true => exact absurd ((strIsEmpty_true_iff secret).mp hb) hs
  unfold verify_signature generate_signature
  rw [hp', hs', strIsEmpty_sha256_prefixed]
  simp only [Bool.or_self, Bool.or_false, Bool.false_or, Bool.false_eq_true, if_false]
  exact constant_time_compare_self _

/-! ## Claims C1, C6, C7, C8 -/

/-- C1 counterexample: with an empty payload the claim fails — the
generated signature is valid HMAC output, yet `verify_signature` rejects
it because the payload is empty. -/
theorem C1_counterexample :
    verify_signature "" (generate_signature "" "secret") "secret" = false := by
  rfl

/-- C1 (amended): for every nonempty payload and nonempty secret,
`verify_signature(payload, generate_signature(payload, secret), secret)`
returns true. (As stated over all strings the claim is false: an empty
payload or empty secret is rejected by the emptiness guard.) -/
theorem C1_signature_roundtrip (payload secret : String)
    (hp : payload ≠ "") (hs : secret ≠ "") :
    verify_signature payload (generate_signature payload secret) secret = true :=
  verify_generate_eq_true payload secret hp hs

theorem C1_signature_roundtrip_witness :
    ("x" : String) ≠ "" ∧ ("k" : String) ≠ "" ∧
    verify_signature "x" (generate_signature "x" "k") "k" = true :=
  ⟨by decide, by decide, C1_signature_roundtrip "x" "k" (by decide) (by decide)⟩

/-- C6: whenever signature verification fails, `parse_event` returns
`InvalidSignature` — for every deserializer, so no JSON parsing can be
observed and a non-JSON payload never yields `ParseError`. -/
theorem C6_invalid_signature_before_parse
    (deser : String → Except String WebhookEvent)
    (payload signature secret : String)
    (h : verify_signature payload signature secret = false) :
    parse_event deser payload signature secret = .error .InvalidSignature := by
  unfold parse_event
  rw [h]
  rfl

set_option maxRecDepth 100000 in
theorem C6_invalid_signature_before_parse_witness :
    verify_signature "not valid json" "sha256=wrong" "secret" = false ∧
    parse_event (fun _ => .error "expected value at line 1 column 1")
      "not valid json" "sha256=wrong" "secret" = .error .InvalidSignature := by
  have h : verify_signature "not valid json" "sha256=wrong" "secret" = false := by rfl
  exact ⟨h, C6_invalid_signature_before_parse _ _ _ _ h⟩

/-- C7: `verify_signature` returns false whenever any one of payload,
signature, or secret is the empty string. -/
theorem C7_empty_inputs_reject (payload signature secret : String)
    (h : payload = "" ∨ signature = "" ∨ secret = "") :
    verify_signature payload signature secret = false := by
  unfold verify_signature
  have he : strIsEmpty "" = true := rfl
  rcases h with h | h | h <;> subst h <;> rw [he] <;> simp

theorem C7_empty_inputs_reject_witness :
    verify_signature "" "sig" "secret" = false ∧
    verify_signature "payload" "" "secret" = false ∧
    verify_signature "payload" "sig" "" = false :=
  ⟨C7_empty_inputs_reject _ _ _ (Or.inl rfl),
   C7_empty_inputs_reject _ _ _ (Or.inr (Or.inl rfl)),
   C7_empty_inputs_reject _ _ _ (Or.inr (Or.inr rfl))⟩

/-- C8: when verification succeeds and the payload deserializes to an
event, `parse_event` returns `InvalidStructure` exactly when the event's
`id` or `created_at` is empty, and the parsed event otherwise. -/
theorem C8_structural_validation
    (deser : String → Except String WebhookEvent)
    (payload signature secret : String) (event : WebhookEvent)
    (hv : verify_signature payload signature secret = true)
    (hd : deser payload = .ok event) :
    parse_event deser payload signature secret =
      if event.id = "" ∨ event.created_at = "" then .error .InvalidStructure
      else .ok event := by
  unfold parse_event
  rw [hv, hd]
  simp only [Bool.not_true, Bool.false_eq_true, if_false]
  by_cases h1 : event.id = ""
  · rw [if_pos (Or.inl h1), (strIsEmpty_true_iff _).mpr h1]
    rfl
  · by_cases h2 : event.created_at = ""
    · rw [if_pos (Or.inr h2), (strIsEmpty_true_iff _).mpr h2]
      have h1' : strIsEmpty event.id = false := by
        cases hb : strIsEmpty event.id with
        | false => rfl
        | true => exact absurd ((strIsEmpty_true_iff _).mp hb) h1
      rw [h1']
      rfl
    · have h1' : strIsEmpty event.id = false := by
        cases hb : strIsEmpty event.id with
        | false => rfl
        | true => exact absurd ((strIsEmpty_true_iff _).mp hb) h1
      have h2' : strIsEmpty event.created_at = false := by
        cases hb : strIsEmpty event.created_at with
        | false => rfl
        | true => exact absurd ((strIsEmpty_true_iff _).mp hb) h2
      rw [h1', h2',
        if_neg (show ¬(event.id = "" ∨ event.created_at = "") from by tauto)]
      rfl

theorem C8_structural_validation_witness :
    verify_signature samplePayload (generate_signature samplePayload "whsec") "whsec" = true ∧
    sampleDeser samplePayload = .ok sampleEvent ∧
    parse_event sampleDeser samplePayload
        (generate_signature samplePayload "whsec") "whsec" =
      if sampleEvent.id = "" ∨ sampleEvent.created_at = "" then .error .InvalidStructure
      else .ok sampleEvent := by
  have hv := verify_generate_eq_true samplePayload "whsec" (by decide) (by decide)
  exact ⟨hv, rfl, C8_structural_validation sampleDeser _ _ _ sampleEvent hv rfl⟩

end Sendly

namespace Sendly

/-! ## Helper lemmas: retry loop -/

/-- Shifting a cons of powers into a range map. -/
lemma cons_pow_shift (a n : Nat) (ha : 1 ≤ a) :
    2 ^ (a - 1) :: ((List.range n).map fun i => 2 ^ (a + i)) =
      (List.range (n + 1)).map fun i => 2 ^ (a - 1 + i) := by
  rw [List.range_succ_eq_map, List.map_cons, List.map_map]
  have hf : ((fun i => 2 ^ (a - 1 + i)) ∘ Nat.succ) = fun i => 2 ^ (a + i) := by
    funext i
    simp only [Function.comp]
    congr 1
    omega
  rw [hf, Nat.add_zero]

/-- For a positive starting attempt the backoff trace is a pure range of
powers of two. -/
lemma backoffFrom_pos (n : Nat) :
    ∀ a, 1 ≤ a →
      backoffFrom a n = (List.range n).map fun i => 2 ^ (a - 1 + i) := by
  induction n with
  | zero => intro a _; rfl
  | succ m ih =>
    intro a ha
    show (if 0 < a then [2 ^ (a - 1)] else []) ++ backoffFrom (a + 1) m = _
    rw [if_pos (by omega), ih (a + 1) (by omega)]
    simpa using cons_pow_shift a m ha

/-- Starting from attempt 0, the trace over `k + 1` attempts is
`[1, 2, …, 2 ^ (k - 1)]`: no sleep before attempt 0. -/
lemma backoffFrom_zero (k : Nat) :
    backoffFrom 0 (k + 1) = (List.range k).map (2 ^ ·) := by
  show (if (0 : Nat) < 0 then _ else []) ++ backoffFrom 1 k = _
  rw [if_neg (by omega), backoffFrom_pos k 1 (by omega), List.nil_append]
  apply List.map_congr_left
  intro i _
  norm_num

/-- Geometric sum of the backoff delays. -/
lemma sum_pow_range (n : Nat) :
    ((List.range n).map (2 ^ ·)).sum = 2 ^ n - 1 := by
  induction n with
  | zero => rfl
  | succ m ih =>
    rw [List.range_succ, List.map_append, List.sum_append, ih]
    have h := Nat.one_le_two_pow (n := m)
    simp [List.sum_cons, pow_succ]
    omega

/-- Any loop run with fuel performs at least one attempt. -/
lemma aux_attempts_pos (fn : Nat → Except ReqwestError HttpResponse)
    (fuel attempt : Nat) (lastErr : Option Error) (hf : 1 ≤ fuel) :
    1 ≤ (requestWithRetryAux fn fuel attempt lastErr).attempts := by
  cases fuel with
  | zero => omega
  | succ f =>
    simp only [requestWithRetryAux]
    cases fn attempt with
    | ok r => simp
    | error e =>
      cases hti : e.is_timeout with
      | true => simp [hti]
      | false =>
        cases htc : e.is_connect with
        | true => simp [hti, htc]
        | false => simp [hti, htc]

/-- A prefix of `k + 1` retryable failures with fuel to spare forces at
least `k + 2` attempts. -/
lemma aux_attempts_ge (fn : Nat → Except ReqwestError HttpResponse) :
    ∀ k fuel attempt lastErr, k + 1 < fuel →
      (∀ j, j ≤ k → isRetryableErr (fn (attempt + j)) = true) →
      k + 2 ≤ (requestWithRetryAux fn fuel attempt lastErr).attempts := by
  intro k
  induction k with
  | zero =>
    intro fuel attempt lastErr hf hr
    cases fuel with
    | zero => omega
    | succ f =>
      have h0 : isRetryableErr (fn attempt) = true := by
        simpa using hr 0 (Nat.le_refl 0)
      cases hfa : fn attempt with
      | ok r => rw [hfa] at h0; simp [isRetryableErr] at h0
      | error e =>
        rw [hfa] at h0
        simp only [isRetryableErr] at h0
        simp only [requestWithRetryAux, hfa]
        have hrest : ∀ le', 1 ≤ (requestWithRetryAux fn f (attempt + 1) le').attempts :=
          fun le' => aux_attempts_pos fn f (attempt + 1) le' (by omega)
        cases hti : e.is_timeout with
        | true =>
          simp only [hti, if_true]
          have := hrest (some .Timeout)
          simp
          omega
        | false =>
          have htc : e.is_connect = true := by
            rw [hti] at h0
            simpa using h0
          simp only [hti, htc, if_true, if_false, Bool.false_eq_true]
          have := hrest (some (.Network e.to_string))
          simp
          omega
  | succ m ih =>
    intro fuel attempt lastErr hf hr
    cases fuel with
    | zero => omega
    | succ f =>
      have h0 : isRetryableErr (fn attempt) = true := by
        simpa using hr 0 (by omega)
      cases hfa : fn attempt with
      | ok r => rw [hfa] at h0; simp [isRetryableErr] at h0
      | error e =>
        rw [hfa] at h0
        simp only [isRetryableErr] at h0
        simp only [requestWithRetryAux, hfa]
        have hshift : ∀ j, j ≤ m → isRetryableErr (fn (attempt + 1 + j)) = true := by
          intro j hj
          have := hr (j + 1) (by omega)
          simpa [Nat.add_assoc, Nat.add_comm 1 j] using this
        cases hti : e.is_timeout with
        | true =>
          simp only [hti, if_true]
          have := ih f (attempt + 1) (some .Timeout) (by omega) hshift
          simp
          omega
        | false =>
          have htc : e.is_connect = true := by
            rw [hti] at h0
            simpa using h0
          simp only [hti, htc, if_true, if_false, Bool.false_eq_true]
          have := ih f (attempt + 1) (some (.Network e.to_string)) (by omega) hshift
          simp
          omega

end Sendly

namespace Sendly

/-- One-step unfolding of the loop on a timeout failure. -/
lemma aux_step_timeout (fn : Nat → Except ReqwestError HttpResponse)
    (fuel attempt : Nat) (lastErr : Option Error) (e : ReqwestError)
    (h : fn attempt = .error e) (ht : e.is_timeout = true) :
    requestWithRetryAux fn (fuel + 1) attempt lastErr =
      { result := (requestWithRetryAux fn fuel (attempt + 1) (some .Timeout)).result,
        attempts := (requestWithRetryAux fn fuel (attempt + 1) (some .Timeout)).attempts + 1,
        sleeps := (if 0 < attempt then [2 ^ (attempt - 1)] else []) ++
          (requestWithRetryAux fn fuel (attempt + 1) (some .Timeout)).sleeps } := by
  simp only [requestWithRetryAux, h, ht, if_true]

/-- One-step unfolding of the loop on a connect failure. -/
lemma aux_step_connect (fn : Nat → Except ReqwestError HttpResponse)
    (fuel attempt : Nat) (lastErr : Option Error) (e : ReqwestError)
    (h : fn attempt = .error e) (ht : e.is_timeout = false) (hc : e.is_connect = true) :
    requestWithRetryAux fn (fuel + 1) attempt lastErr =
      { result :=
          (requestWithRetryAux fn fuel (attempt + 1) (some (.Network e.to_string))).result,
        attempts :=
          (requestWithRetryAux fn fuel (attempt + 1) (some (.Network e.to_string))).attempts + 1,
        sleeps := (if 0 < attempt then [2 ^ (attempt - 1)] else []) ++
          (requestWithRetryAux fn fuel (attempt + 1) (some (.Network e.to_string))).sleeps } := by
  simp only [requestWithRetryAux, h, ht, hc, Bool.false_eq_true, if_false, if_true]

/-- A prefix of `k` retryable failures followed by an HTTP response at
attempt `attempt + k` makes the loop stop with that response's
classification after exactly `k + 1` attempts. -/
lemma aux_prefix_ok (fn : Nat → Except ReqwestError HttpResponse)
    (resp : HttpResponse) :
    ∀ k fuel attempt lastErr, k < fuel →
      (∀ j, j < k → isRetryableErr (fn (attempt + j)) = true) →
      fn (attempt + k) = .ok resp →
      requestWithRetryAux fn fuel attempt lastErr =
        ⟨handle_response resp, k + 1, backoffFrom attempt (k + 1)⟩ := by
  intro k
  induction k with
  | zero =>
    intro fuel attempt lastErr hk _ hok
    cases fuel with
    | zero => omega
    | succ f =>
      rw [Nat.add_zero] at hok
      simp only [requestWithRetryAux, hok]
      simp [backoffFrom]
  | succ m ih =>
    intro fuel attempt lastErr hk hprev hok
    cases fuel with
    | zero => omega
    | succ f =>
      have h0 : isRetryableErr (fn attempt) = true := by
        simpa using hprev 0 (by omega)
      cases hfa : fn attempt with
      | ok r => rw [hfa] at h0; simp [isRetryableErr] at h0
      | error e =>
        rw [hfa] at h0
        simp only [isRetryableErr] at h0
        have hprev' : ∀ j, j < m → isRetryableErr (fn (attempt + 1 + j)) = true := by
          intro j hj
          have := hprev (j + 1) (by omega)
          simpa [Nat.add_assoc, Nat.add_comm 1 j] using this
        have hok' : fn (attempt + 1 + m) = .ok resp := by
          have harith : attempt + 1 + m = attempt + (m + 1) := by omega
          rw [harith]
          exact hok
        simp only [requestWithRetryAux, hfa]
        cases hti : e.is_timeout with
        | true =>
          simp only [hti, if_true]
          rw [ih f (attempt + 1) (some .Timeout) (by omega) hprev' hok']
          simp [backoffFrom]
        | false =>
          have htc : e.is_connect = true := by
            rw [hti] at h0
            simpa using h0
          simp only [hti, htc, Bool.false_eq_true, if_false, if_true]
          rw [ih f (attempt + 1) (some (.Network e.to_string)) (by omega) hprev' hok']
          simp [backoffFrom]

/-- A prefix of `k` retryable failures followed by a non-retryable
transport failure makes the loop return `Http` immediately after exactly
`k + 1` attempts. -/
lemma aux_prefix_other (fn : Nat → Except ReqwestError HttpResponse)
    (e2 : ReqwestError) (ht : e2.is_timeout = false) (hc : e2.is_connect = false) :
    ∀ k fuel attempt lastErr, k < fuel →
      (∀ j, j < k → isRetryableErr (fn (attempt + j)) = true) →
      fn (attempt + k) = .error e2 →
      requestWithRetryAux fn fuel attempt lastErr =
        ⟨.error (.Http e2), k + 1, backoffFrom attempt (k + 1)⟩ := by
  intro k
  induction k with
  | zero =>
    intro fuel attempt lastErr hk _ herr
    cases fuel with
    | zero => omega
    | succ f =>
      rw [Nat.add_zero] at herr
      simp only [requestWithRetryAux, herr, ht, hc, Bool.false_eq_true, if_false]
      simp [backoffFrom]
  | succ m ih =>
    intro fuel attempt lastErr hk hprev herr
    cases fuel with
    | zero => omega
    | succ f =>
      have h0 : isRetryableErr (fn attempt) = true := by
        simpa using hprev 0 (by omega)
      cases hfa : fn attempt with
      | ok r => rw [hfa] at h0; simp [isRetryableErr] at h0
      | error e =>
        rw [hfa] at h0
        simp only [isRetryableErr] at h0
        have hprev' : ∀ j, j < m → isRetryableErr (fn (attempt + 1 + j)) = true := by
          intro j hj
          have := hprev (j + 1) (by omega)
          simpa [Nat.add_assoc, Nat.add_comm 1 j] using this
        have herr' : fn (attempt + 1 + m) = .error e2 := by
          have harith : attempt + 1 + m = attempt + (m + 1) := by omega
          rw [harith]
          exact herr
        simp only [requestWithRetryAux, hfa]
        cases hti : e.is_timeout with
        | true =>
          simp only [hti, if_true]
          rw [ih f (attempt + 1) (some .Timeout) (by omega) hprev' herr']
          simp [backoffFrom]
        | false =>
          have htc : e.is_connect = true := by
            rw [hti] at h0
            simpa using h0
          simp only [hti, htc, Bool.false_eq_true, if_false, if_true]
          rw [ih f (attempt + 1) (some (.Network e.to_string)) (by omega) hprev' herr']
          simp [backoffFrom]

/-- When every attempt within the fuel budget fails retryably, the loop
exhausts the budget and returns the classification of the final
attempt's failure — never the `"Request failed after retries"`
fallback. -/
lemma aux_exhaust (fn : Nat → Except ReqwestError HttpResponse)
    (elast : ReqwestError) (hre : (elast.is_timeout || elast.is_connect) = true) :
    ∀ f attempt lastErr,
      (∀ j, j < f → isRetryableErr (fn (attempt + j)) = true) →
      fn (attempt + f) = .error elast →
      requestWithRetryAux fn (f + 1) attempt lastErr =
        ⟨.error (classifyRetryable elast), f + 1, backoffFrom attempt (f + 1)⟩ := by
  intro f
  induction f with
  | zero =>
    intro attempt lastErr _ hlast
    rw [Nat.add_zero] at hlast
    simp only [requestWithRetryAux, hlast]
    cases hti : elast.is_timeout with
    | true =>
      simp only [hti, if_true]
      simp [requestWithRetryAux, classifyRetryable, hti, backoffFrom]
    | false =>
      have htc : elast.is_connect = true := by
        rw [hti] at hre
        simpa using hre
      simp only [hti, htc, Bool.false_eq_true, if_false, if_true]
      simp [requestWithRetryAux, classifyRetryable, hti, backoffFrom]
  | succ m ih =>
    intro attempt lastErr hprev hlast
    have h0 : isRetryableErr (fn attempt) = true := by
      simpa using hprev 0 (by omega)
    cases hfa : fn attempt with
    | ok r => rw [hfa] at h0; simp [isRetryableErr] at h0
    | error e =>
      rw [hfa] at h0
      simp only [isRetryableErr] at h0
      have hprev' : ∀ j, j < m → isRetryableErr (fn (attempt + 1 + j)) = true := by
        intro j hj
        have := hprev (j + 1) (by omega)
        simpa [Nat.add_assoc, Nat.add_comm 1 j] using this
      have hlast' : fn (attempt + 1 + m) = .error elast := by
        have harith : attempt + 1 + m = attempt + (m + 1) := by omega
        rw [harith]
        exact hlast
      cases hti : e.is_timeout with
      | true =>
        rw [aux_step_timeout fn (m + 1) attempt lastErr e hfa hti,
          ih (attempt + 1) (some .Timeout) hprev' hlast']
        simp [backoffFrom]
      | false =>
        have htc : e.is_connect = true := by
          rw [hti] at h0
          simpa using h0
        rw [aux_step_connect fn (m + 1) attempt lastErr e hfa hti htc,
          ih (attempt + 1) (some (.Network e.to_string)) hprev' hlast']
        simp [backoffFrom]

end Sendly

namespace Sendly

/-! ## Claims C2, C4, C5, C10 -/

/-- C2: with `max_retries = N` and a transport that times out on every
attempt, the loop performs exactly `N + 1` attempts, sleeps
`1, 2, …, 2 ^ (N - 1)` seconds (one sleep immediately before each
attempt `1 … N`, none before attempt 0), totalling `2 ^ N - 1` seconds,
and returns `Timeout`. -/
theorem C2_timeout_exhausts_retries
    (fn : Nat → Except ReqwestError HttpResponse) (N : Nat)
    (h : ∀ k, ∃ e, fn k = .error e ∧ e.is_timeout = true) :
    request_with_retry fn N =
      ⟨.error .Timeout, N + 1, (List.range N).map (2 ^ ·)⟩ ∧
    ((List.range N).map (2 ^ ·)).sum = 2 ^ N - 1 := by
  refine ⟨?_, sum_pow_range N⟩
  obtain ⟨elast, hlast, hti⟩ := h N
  have hre : (elast.is_timeout || elast.is_connect) = true := by
    rw [hti]
    rfl
  have hr : ∀ j, j < N → isRetryableErr (fn (0 + j)) = true := by
    intro j _
    obtain ⟨e, he, het⟩ := h (0 + j)
    rw [he]
    simp [isRetryableErr, het]
  have hlast' : fn (0 + N) = .error elast := by
    rw [Nat.zero_add]
    exact hlast
  have hmain := aux_exhaust fn elast hre N 0 none hr hlast'
  unfold request_with_retry
  rw [hmain, backoffFrom_zero]
  simp [classifyRetryable, hti]

theorem C2_timeout_exhausts_retries_witness :
    request_with_retry (fun _ => .error ⟨true, false, "operation timed out"⟩) 3 =
      ⟨.error .Timeout, 4, [1, 2, 4]⟩ := by
  have h := C2_timeout_exhausts_retries
    (fun _ => .error ⟨true, false, "operation timed out"⟩) 3
    (fun _ => ⟨⟨true, false, "operation timed out"⟩, rfl, rfl⟩)
  exact h.1.trans (by decide)

/-- C4: as soon as an attempt returns any HTTP response, the loop stops:
after `k` retryable transport failures, a response at attempt `k` makes
the call return `handle_response` of that response with exactly `k + 1`
attempts and only the `k` backoff sleeps that preceded it. In
particular, a 500 on the first attempt yields `Api {status_code: 500}`
with one attempt and zero sleeps (see the witness). -/
theorem C4_response_terminates_retries
    (fn : Nat → Except ReqwestError HttpResponse) (N k : Nat) (resp : HttpResponse)
    (hk : k ≤ N)
    (hprev : ∀ j, j < k → isRetryableErr (fn j) = true)
    (hok : fn k = .ok resp) :
    request_with_retry fn N =
      ⟨handle_response resp, k + 1, (List.range k).map (2 ^ ·)⟩ := by
  have hprev' : ∀ j, j < k → isRetryableErr (fn (0 + j)) = true := by
    intro j hj
    rw [Nat.zero_add]
    exact hprev j hj
  have hok' : fn (0 + k) = .ok resp := by
    rw [Nat.zero_add]
    exact hok
  have hmain := aux_prefix_ok fn resp k (N + 1) 0 none (by omega) hprev' hok'
  unfold request_with_retry
  rw [hmain, backoffFrom_zero]

theorem C4_response_terminates_retries_witness :
    request_with_retry (fun _ => .ok ⟨500, [], none⟩) 3 =
      ⟨.error (.Api "Unknown error" 500 none), 1, []⟩ := by
  have h := C4_response_terminates_retries (fun _ => .ok ⟨500, [], none⟩) 3 0
    ⟨500, [], none⟩ (by omega) (fun j hj => absurd hj (Nat.not_lt_zero j)) rfl
  exact h.trans (by decide)

/-- C5: transport failures are classified before the retry decision.
After a prefix of `k` retryable failures, if attempt `k` fails with a
timeout it is recorded as `Timeout` and retried (further attempts occur
when `k < N`; at `k = N` the recorded `Timeout` is returned); a connect
failure is recorded as `Network` and retried likewise; any other
transport failure is returned immediately as `Http` with exactly `k + 1`
attempts. -/
theorem C5_transport_error_classification
    (fn : Nat → Except ReqwestError HttpResponse) (N k : Nat) (e : ReqwestError)
    (hk : k ≤ N)
    (hprev : ∀ j, j < k → isRetryableErr (fn j) = true)
    (he : fn k = .error e) :
    (e.is_timeout = true → k < N → k + 2 ≤ (request_with_retry fn N).attempts) ∧
    (e.is_timeout = true → k = N →
      request_with_retry fn N =
        ⟨.error .Timeout, N + 1, (List.range N).map (2 ^ ·)⟩) ∧
    (e.is_timeout = false → e.is_connect = true → k < N →
      k + 2 ≤ (request_with_retry fn N).attempts) ∧
    (e.is_timeout = false → e.is_connect = true → k = N →
      request_with_retry fn N =
        ⟨.error (.Network e.to_string), N + 1, (List.range N).map (2 ^ ·)⟩) ∧
    (e.is_timeout = false → e.is_connect = false →
      request_with_retry fn N =
        ⟨.error (.Http e), k + 1, (List.range k).map (2 ^ ·)⟩) := by
  have hprev0 : ∀ j, j < k → isRetryableErr (fn (0 + j)) = true := by
    intro j hj
    rw [Nat.zero_add]
    exact hprev j hj
  have hretried : isRetryableErr (fn k) = true → k < N →
      k + 2 ≤ (request_with_retry fn N).attempts := by
    intro hrk hkN
    have hall : ∀ j, j ≤ k → isRetryableErr (fn (0 + j)) = true := by
      intro j hj
      rcases Nat.lt_or_ge j k with hlt | hge
      · exact hprev0 j hlt
      · have : j = k := by omega
        subst this
        rw [Nat.zero_add]
        exact hrk
    exact aux_attempts_ge fn k (N + 1) 0 none (by omega) hall
  have hexhaust : (e.is_timeout || e.is_connect) = true → k = N →
      request_with_retry fn N =
        ⟨.error (classifyRetryable e), N + 1, (List.range N).map (2 ^ ·)⟩ := by
    intro hre hkN
    subst hkN
    have hlast' : fn (0 + k) = .error e := by
      rw [Nat.zero_add]
      exact he
    have hmain := aux_exhaust fn e hre k 0 none hprev0 hlast'
    unfold request_with_retry
    rw [hmain, backoffFrom_zero]
  refine ⟨?_, ?_, ?_, ?_, ?_⟩
  · intro hti hkN
    exact hretried (by rw [he]; simp [isRetryableErr, hti]) hkN
  · intro hti hkN
    have := hexhaust (by rw [hti]; rfl) hkN
    rwa [show classifyRetryable e = .Timeout from by simp [classifyRetryable, hti]] at this
  · intro hti htc hkN
    exact hretried (by rw [he]; simp [isRetryableErr, htc]) hkN
  · intro hti htc hkN
    have := hexhaust (by rw [hti, htc]; rfl) hkN
    rwa [show classifyRetryable e = .Network e.to_string from by
      simp [classifyRetryable, hti]] at this
  · intro hti htc
    have he' : fn (0 + k) = .error e := by
      rw [Nat.zero_add]
      exact he
    have hmain := aux_prefix_other fn e hti htc k (N + 1) 0 none (by omega) hprev0 he'
    unfold request_with_retry
    rw [hmain, backoffFrom_zero]

theorem C5_transport_error_classification_witness :
    request_with_retry (fun _ => .error ⟨false, false, "tls handshake failed"⟩) 2 =
      ⟨.error (.Http ⟨false, false, "tls handshake failed"⟩), 1, []⟩ ∧
    request_with_retry (fun _ => .error ⟨true, false, "operation timed out"⟩) 1 =
      ⟨.error .Timeout, 2, [1]⟩ ∧
    request_with_retry (fun _ => .error ⟨false, true, "connection refused"⟩) 1 =
      ⟨.error (.Network "connection refused"), 2, [1]⟩ := by
  refine ⟨?_, ?_, ?_⟩
  · have h := C5_transport_error_classification
      (fun _ => .error ⟨false, false, "tls handshake failed"⟩) 2 0
      ⟨false, false, "tls handshake failed"⟩ (by omega)
      (fun j hj => absurd hj (Nat.not_lt_zero j)) rfl
    exact (h.2.2.2.2 rfl rfl).trans (by decide)
  · have h := C5_transport_error_classification
      (fun _ => .error ⟨true, false, "operation timed out"⟩) 1 1
      ⟨true, false, "operation timed out"⟩ (le_refl 1) (fun j hj => rfl) rfl
    exact (h.2.1 rfl rfl).trans (by decide)
  · have h := C5_transport_error_classification
      (fun _ => .error ⟨false, true, "connection refused"⟩) 1 1
      ⟨false, true, "connection refused"⟩ (le_refl 1) (fun j hj => rfl) rfl
    exact (h.2.2.2.1 rfl rfl rfl).trans (by decide)

/-- C10: the loop always performs at least one attempt (for every
transport and every `max_retries`), and when every allowed attempt fails
retryably the returned error is exactly the classification of the final
attempt's failure — so the `"Request failed after retries"` fallback
(taken only when no error was recorded) is never the result. -/
theorem C10_loop_attempts_and_recorded_error
    (fn g : Nat → Except ReqwestError HttpResponse) (N M : Nat)
    (elast : ReqwestError)
    (h1 : ∀ k, k ≤ N → isRetryableErr (fn k) = true)
    (h2 : fn N = .error elast) :
    1 ≤ (request_with_retry g M).attempts ∧
    request_with_retry fn N =
      ⟨.error (classifyRetryable elast), N + 1, (List.range N).map (2 ^ ·)⟩ := by
  constructor
  · unfold request_with_retry
    exact aux_attempts_pos g (M + 1) 0 none (by omega)
  · have hre : (elast.is_timeout || elast.is_connect) = true := by
      have hrk := h1 N (le_refl N)
      rw [h2] at hrk
      simpa [isRetryableErr] using hrk
    have hprev : ∀ j, j < N → isRetryableErr (fn (0 + j)) = true := by
      intro j hj
      rw [Nat.zero_add]
      exact h1 j (by omega)
    have hlast : fn (0 + N) = .error elast := by
      rw [Nat.zero_add]
      exact h2
    have hmain := aux_exhaust fn elast hre N 0 none hprev hlast
    unfold request_with_retry
    rw [hmain, backoffFrom_zero]

theorem C10_loop_attempts_and_recorded_error_witness :
    1 ≤ (request_with_retry (fun _ => .ok ⟨200, [], none⟩) 0).attempts ∧
    request_with_retry (fun _ => .error ⟨false, true, "connection refused"⟩) 1 =
      ⟨.error (classifyRetryable ⟨false, true, "connection refused"⟩), 2, [1]⟩ := by
  have h := C10_loop_attempts_and_recorded_error
    (fun _ => .error ⟨false, true, "connection refused"⟩)
    (fun _ => .ok ⟨200, [], none⟩) 1 0
    ⟨false, true, "connection refused"⟩ (fun k hk => rfl) rfl
  exact ⟨h.1, h.2.trans (by decide)⟩

end Sendly

namespace Sendly

/-! ## Claims C3 and C9 -/

/-- C3: deterministic status-code classification of terminal responses,
the documented retryability of each resulting kind, the `Retry-After`
attachment on 429, and 2xx pass-through. -/
theorem C3_status_code_classification
    (h : List (String × String)) (b : Option ApiErrorResponse)
    (hro : getHeader h "Retry-After" = none)
    (s s2 : Nat)
    (hs : ¬(200 ≤ s ∧ s < 300))
    (hs' : s ∉ ([400, 401, 402, 404, 422, 429] : List Nat))
    (h2xx : 200 ≤ s2 ∧ s2 < 300)
    (m : String) (ra : Option Nat) (sc : Nat) (c : Option String) :
    handle_response ⟨401, h, b⟩ = .error (.Authentication (bodyMessage b)) ∧
    handle_response ⟨402, h, b⟩ = .error (.InsufficientCredits (bodyMessage b)) ∧
    handle_response ⟨404, h, b⟩ = .error (.NotFound (bodyMessage b)) ∧
    handle_response ⟨429, h, b⟩ = .error (.RateLimit (bodyMessage b) none) ∧
    handle_response ⟨400, h, b⟩ = .error (.Validation (bodyMessage b)) ∧
    handle_response ⟨422, h, b⟩ = .error (.Validation (bodyMessage b)) ∧
    handle_response ⟨s, h, b⟩ = .error (.Api (bodyMessage b) s (bodyCode b)) ∧
    handle_response ⟨s2, h, b⟩ = .ok ⟨s2, h, b⟩ ∧
    handle_response ⟨429, ("Retry-After", "60") :: h, b⟩ =
      .error (.RateLimit (bodyMessage b) (some 60)) ∧
    (Error.RateLimit m ra).is_retryable = true ∧
    (Error.Authentication m).is_retryable = false ∧
    (Error.InsufficientCredits m).is_retryable = false ∧
    (Error.NotFound m).is_retryable = false ∧
    (Error.Validation m).is_retryable = false ∧
    (Error.Api m sc c).is_retryable = false := by
  simp only [List.mem_cons, List.mem_singleton, not_or] at hs'
  obtain ⟨hn400, hn401, hn402, hn404, hn422, hn429, -⟩ := hs'
  refine ⟨?_, ?_, ?_, ?_, ?_, ?_, ?_, ?_, ?_, rfl, rfl, rfl, rfl, rfl, rfl⟩
  · simp [handle_response, bodyMessage]
  · simp [handle_response, bodyMessage]
  · simp [handle_response, bodyMessage]
  · simp [handle_response, bodyMessage, hro]
  · simp [handle_response, bodyMessage]
  · simp [handle_response, bodyMessage]
  · simp only [handle_response]
    rw [if_neg hs, if_neg hn401, if_neg hn402, if_neg hn404, if_neg hn429,
      if_neg (not_or.mpr ⟨hn400, hn422⟩)]
    rfl
  · simp only [handle_response]
    rw [if_pos h2xx]
  · have hhdr :
        (getHeader (("Retry-After", "60") :: h) "Retry-After").bind parseU64 =
          some 60 := rfl
    simp [handle_response, bodyMessage, hhdr]

theorem C3_status_code_classification_witness :
    handle_response ⟨401, [], none⟩ = .error (.Authentication (bodyMessage none)) ∧
    handle_response ⟨402, [], none⟩ = .error (.InsufficientCredits (bodyMessage none)) ∧
    handle_response ⟨404, [], none⟩ = .error (.NotFound (bodyMessage none)) ∧
    handle_response ⟨429, [], none⟩ = .error (.RateLimit (bodyMessage none) none) ∧
    handle_response ⟨400, [], none⟩ = .error (.Validation (bodyMessage none)) ∧
    handle_response ⟨422, [], none⟩ = .error (.Validation (bodyMessage none)) ∧
    handle_response ⟨500, [], none⟩ =
      .error (.Api (bodyMessage none) 500 (bodyCode none)) ∧
    handle_response ⟨204, [], none⟩ = .ok ⟨204, [], none⟩ ∧
    handle_response ⟨429, [("Retry-After", "60")], none⟩ =
      .error (.RateLimit (bodyMessage none) (some 60)) ∧
    (Error.RateLimit "m" (some 1)).is_retryable = true ∧
    (Error.Authentication "m").is_retryable = false ∧
    (Error.InsufficientCredits "m").is_retryable = false ∧
    (Error.NotFound "m").is_retryable = false ∧
    (Error.Validation "m").is_retryable = false ∧
    (Error.Api "m" 503 none).is_retryable = false :=
  C3_status_code_classification [] none rfl 500 204 (by omega) (by decide)
    ⟨by omega, by omega⟩ "m" (some 1) 503 none

/-- Pre-flight phone validation fails on a non-matching number. -/
lemma validate_phone_fail (p : String) (h : phoneRegexMatches p = false) :
    validate_phone p =
      .error (.Validation
        "Invalid phone number format. Use E.164 format (e.g., +15551234567)") := by
  unfold validate_phone
  rw [h]
  rfl

/-- Pre-flight phone validation passes on a matching number. -/
lemma validate_phone_ok (p : String) (h : phoneRegexMatches p = true) :
    validate_phone p = .ok () := by
  unfold validate_phone
  rw [h]
  rfl

/-- Pre-flight text validation rejects empty text. -/
lemma validate_text_empty (t : String) (h : strIsEmpty t = true) :
    validate_text t = .error (.Validation "Message text is required") := by
  unfold validate_text
  rw [h]
  rfl

/-- Pre-flight text validation rejects over-long text. -/
lemma validate_text_long (t : String)
    (h : MAX_TEXT_LENGTH < (strBytes t).length) :
    validate_text t =
      .error (.Validation ("Message text exceeds maximum length ("
        ++ toString MAX_TEXT_LENGTH ++ " characters)")) := by
  unfold validate_text
  have hne : strIsEmpty t = false := by
    unfold strIsEmpty
    rw [beq_eq_false_iff_ne]
    intro hc
    rw [hc] at h
    simp [MAX_TEXT_LENGTH] at h
  rw [hne]
  simp only [Bool.false_eq_true, if_false, if_pos h]

/-- C9: a send request with an invalid recipient number, empty text, or
text over 1600 bytes fails as `Validation` with the network stage never
reached (hence no attempt and no backoff sleep), and `Messages::get`
with an empty id likewise fails as `Validation` without a network
call. -/
theorem C9_preflight_validation {α : Type} (network network2 : Except Error α)
    (request : SendMessageRequest)
    (h : phoneRegexMatches request.to = false ∨
      strIsEmpty request.text = true ∨
      MAX_TEXT_LENGTH < (strBytes request.text).length) :
    (messages_send network request).2 = false ∧
    resultIsValidation (messages_send network request).1 = true ∧
    messages_get network2 "" = (.error (.Validation "Message ID is required"), false) := by
  have hmain : (messages_send network request).2 = false ∧
      resultIsValidation (messages_send network request).1 = true := by
    unfold messages_send
    rcases h with h | h | h
    · rw [validate_phone_fail _ h]
      simp [resultIsValidation]
    · cases hp : phoneRegexMatches request.to with
      | false =>
        rw [validate_phone_fail _ hp]
        simp [resultIsValidation]
      | true =>
        rw [validate_phone_ok _ hp, validate_text_empty _ h]
        simp [resultIsValidation]
    · cases hp : phoneRegexMatches request.to with
      | false =>
        rw [validate_phone_fail _ hp]
        simp [resultIsValidation]
      | true =>
        rw [validate_phone_ok _ hp, validate_text_long _ h]
        simp [resultIsValidation]
  exact ⟨hmain.1, hmain.2, rfl⟩

theorem C9_preflight_validation_witness :
    (messages_send (Except.ok ()) ⟨"12345", "", none⟩).2 = false ∧
    resultIsValidation (messages_send (Except.ok ()) ⟨"12345", "", none⟩).1 = true ∧
    messages_get (Except.ok ()) "" =
      (.error (.Validation "Message ID is required"), false) :=
  C9_preflight_validation (Except.ok ()) (Except.ok ())
    ⟨"12345", "", none⟩ (Or.inl (by decide))

end Sendly
